import Mathlib

/-!
Verification of the Animated library (src/Animated.js).

The development shallowly embeds the parts of the source the claims are
about: the parent/child bookkeeping of `AnimatedWithChildren`
(`addChild` / `removeChild`), the two-phase `_flush` graph walk, the
`AnimatedValue` leaf (`setValue` / `_updateValue`), the completion-callback
(`_onEnd`) discipline shared by the three drivers, the `TimingAnimation`
tick, the `SpringAnimation` constructor and its rest conditions, and the
`sequence` / `parallel` combinators.

JS numbers are modelled as rationals (`ℚ`): every claim here is about
control flow and exact arithmetic identities, not floating-point rounding.
Node identity (JS reference identity in `indexOf`, `Set`, `instanceof`) is
modelled by a `Nat` id.
-/

namespace AnimatedJS

/-! ## Node graph core: `AnimatedWithChildren.addChild` / `removeChild`
(src/Animated.js lines 40-70).

A node's bookkeeping state: its ordered child list (children are JS object
references, modelled by `Nat` ids) together with counters recording how
often the node's own `attach()` / `detach()` were invoked. -/

structure ChildState where
  children : List Nat
  attachCount : Nat
  detachCount : Nat
deriving DecidableEq, Repr

/-- `addChild(child)`: if the child list was empty, call `this.attach()`
(counted), then push the child.  There is no duplicate check. -/
def addChild (st : ChildState) (c : Nat) : ChildState :=
  let st' := if st.children.length = 0 then
    { st with attachCount := st.attachCount + 1 } else st
  { st' with children := st'.children ++ [c] }

/-- `removeChild(child)`: `indexOf` the child; if absent, warn and return
(no-op); otherwise `splice` out the first occurrence and, if the list
became empty, call `this.detach()` (counted). -/
def removeChild (st : ChildState) (c : Nat) : ChildState :=
  if c ∈ st.children then
    let cs := st.children.erase c
    if cs.length = 0 then
      { st with children := cs, detachCount := st.detachCount + 1 }
    else
      { st with children := cs }
  else
    st

/-- An operation on the child list. -/
inductive ChildOp where
  | add (c : Nat)
  | remove (c : Nat)
deriving DecidableEq, Repr

def childStep (st : ChildState) : ChildOp → ChildState
  | .add c => addChild st c
  | .remove c => removeChild st c

/-- Run a sequence of add/remove operations from a freshly constructed
node (empty child list, no attach/detach yet). -/
def runChildOps (ops : List ChildOp) : ChildState :=
  ops.foldl childStep ⟨[], 0, 0⟩

/-- Generic preservation of a predicate along `List.foldl`. -/
lemma foldl_preserves {α β : Type} (P : β → Prop) (f : β → α → β)
    (hf : ∀ b a, P b → P (f b a)) :
    ∀ (l : List α) (b : β), P b → P (l.foldl f b) := by
  intro l
  induction l with
  | nil => intro b h; simpa using h
  | cons c l ihl => intro b h; simpa [List.foldl_cons] using ihl _ (hf b c h)

lemma addChild_children (st : ChildState) (c : Nat) :
    (addChild st c).children = st.children ++ [c] := by
  by_cases hlen : st.children.length = 0 <;> simp [addChild, hlen]

lemma addChild_attachCount (st : ChildState) (c : Nat) :
    (addChild st c).attachCount
      = st.attachCount + (if st.children.length = 0 then 1 else 0) := by
  by_cases hlen : st.children.length = 0 <;> simp [addChild, hlen]

lemma addChild_detachCount (st : ChildState) (c : Nat) :
    (addChild st c).detachCount = st.detachCount := by
  by_cases hlen : st.children.length = 0 <;> simp [addChild, hlen]

lemma removeChild_not_mem (st : ChildState) (c : Nat) (h : c ∉ st.children) :
    removeChild st c = st := by
  simp [removeChild, h]

lemma removeChild_children (st : ChildState) (c : Nat) (h : c ∈ st.children) :
    (removeChild st c).children = st.children.erase c := by
  simp only [removeChild, if_pos h]
  by_cases hz : (st.children.erase c).length = 0 <;> simp [hz]

lemma removeChild_attachCount (st : ChildState) (c : Nat) (h : c ∈ st.children) :
    (removeChild st c).attachCount = st.attachCount := by
  simp only [removeChild, if_pos h]
  by_cases hz : (st.children.erase c).length = 0 <;> simp [hz]

lemma removeChild_detachCount (st : ChildState) (c : Nat) (h : c ∈ st.children) :
    (removeChild st c).detachCount
      = st.detachCount + (if (st.children.erase c).length = 0 then 1 else 0) := by
  simp only [removeChild, if_pos h]
  by_cases hz : (st.children.erase c).length = 0 <;> simp [hz]

/-- The attach/detach balance invariant: the number of `attach` calls
exceeds the number of `detach` calls by one exactly while the child list
is nonempty. -/
def childInv (st : ChildState) : Prop :=
  st.attachCount = st.detachCount + (if st.children.length = 0 then 0 else 1)

lemma childStep_inv (st : ChildState) (op : ChildOp) (h : childInv st) :
    childInv (childStep st op) := by
  cases op with
  | add c =>
    simp only [childStep, childInv, addChild_children, addChild_attachCount,
      addChild_detachCount] at h ⊢
    by_cases hlen : st.children.length = 0 <;> simp [hlen] at h ⊢ <;> omega
  | remove c =>
    by_cases hmem : c ∈ st.children
    · have hpos : 0 < st.children.length :=
        List.length_pos.mpr (List.ne_nil_of_mem hmem)
      have herase : (st.children.erase c).length = st.children.length - 1 :=
        List.length_erase_of_mem hmem
      simp only [childStep, childInv, removeChild_children st c hmem,
        removeChild_attachCount st c hmem, removeChild_detachCount st c hmem] at h ⊢
      rw [if_neg (by omega : ¬ st.children.length = 0)] at h
      by_cases hz : (st.children.erase c).length = 0 <;> simp [hz] <;> omega
    · simpa [childStep, removeChild_not_mem st c hmem] using h

lemma runChildOps_inv (ops : List ChildOp) : childInv (runChildOps ops) := by
  have h0 : childInv ⟨[], 0, 0⟩ := by simp [childInv]
  exact foldl_preserves childInv childStep (fun b a hb => childStep_inv b a hb) ops _ h0

/-- C5: a composite node's own `attach()` is called exactly when its child
count transitions from 0 to 1 (i.e. on an `addChild` whose pre-state list
is empty), its own `detach()` exactly when the count transitions from 1 to
0 (a successful `removeChild` that empties the list); consequently any
operation sequence from a fresh node that ends with an empty child list
has equally many `attach` and `detach` calls. -/
theorem c5_attach_detach_balance :
    (∀ (st : ChildState) (c : Nat),
        (addChild st c).attachCount
          = st.attachCount + (if st.children.length = 0 then 1 else 0)
        ∧ (addChild st c).detachCount = st.detachCount)
    ∧ (∀ (st : ChildState) (c : Nat),
        (removeChild st c).detachCount
          = st.detachCount
            + (if c ∈ st.children ∧ st.children.length = 1 then 1 else 0)
        ∧ (removeChild st c).attachCount = st.attachCount)
    ∧ (∀ ops : List ChildOp, (runChildOps ops).children = [] →
        (runChildOps ops).attachCount = (runChildOps ops).detachCount) := by
  refine ⟨?_, ?_, ?_⟩
  · intro st c
    exact ⟨addChild_attachCount st c, addChild_detachCount st c⟩
  · intro st c
    constructor
    · by_cases hmem : c ∈ st.children
      · have herase : (st.children.erase c).length = st.children.length - 1 :=
          List.length_erase_of_mem hmem
        have hpos : 0 < st.children.length :=
          List.length_pos.mpr (List.ne_nil_of_mem hmem)
        rw [removeChild_detachCount st c hmem]
        by_cases hz : (st.children.erase c).length = 0
        · have hone : st.children.length = 1 := by omega
          simp [hz, hmem, hone]
        · have hone : ¬ st.children.length = 1 := by omega
          simp [hz, hmem, hone]
          omega
      · simp [removeChild_not_mem st c hmem, hmem]
    · by_cases hmem : c ∈ st.children
      · exact removeChild_attachCount st c hmem
      · simp [removeChild_not_mem st c hmem]
  · intro ops hempty
    have h := runChildOps_inv ops
    simp only [childInv, hempty] at h
    simpa using h

/-- C5 witness: the sequence add 0 / remove 0 returns the child count to
zero and has one `attach` matched by one `detach`. -/
theorem c5_witness :
    (runChildOps [ChildOp.add 0, ChildOp.remove 0]).attachCount
      = (runChildOps [ChildOp.add 0, ChildOp.remove 0]).detachCount :=
  c5_attach_detach_balance.2.2 [ChildOp.add 0, ChildOp.remove 0] (by decide)

/-- C6 counterexample: `addChild` performs no duplicate check, so adding
the same child twice yields two list entries — the occurrence count of
child 5 after `addChild(5); addChild(5)` is 2, refuting "no child
reference occurs in the list more than once". -/
theorem c6_counterexample :
    ¬ ((runChildOps [ChildOp.add 5, ChildOp.add 5]).children.count 5 ≤ 1) := by
  decide

/-- C6 (amended): the child list is ordered by insertion — `addChild`
appends to the end unconditionally (so duplicates are possible, and adding
the same child twice does produce two entries); `removeChild` removes only
the first occurrence of the child and is a warning no-op when the child is
absent. -/
theorem c6_amended_child_list :
    (∀ (st : ChildState) (c : Nat), (addChild st c).children = st.children ++ [c])
    ∧ (∀ (st : ChildState) (c : Nat), c ∈ st.children →
        (removeChild st c).children = st.children.erase c)
    ∧ (∀ (st : ChildState) (c : Nat), c ∉ st.children →
        (removeChild st c).children = st.children) := by
  refine ⟨?_, ?_, ?_⟩
  · intro st c
    exact addChild_children st c
  · intro st c hmem
    exact removeChild_children st c hmem
  · intro st c hmem
    simp [removeChild_not_mem st c hmem]

/-- C6 amended witness: removing an absent child (9) from the list [1, 2]
leaves the list unchanged, and removing a present child (1) erases its
first occurrence. -/
theorem c6_amended_witness :
    (removeChild ⟨[1, 2], 0, 0⟩ 9).children = [1, 2]
    ∧ (removeChild ⟨[1, 1, 2], 0, 0⟩ 1).children = List.erase [1, 1, 2] 1 := by
  constructor
  · exact c6_amended_child_list.2.2 ⟨[1, 2], 0, 0⟩ 9 (by decide)
  · exact c6_amended_child_list.2.1 ⟨[1, 1, 2], 0, 0⟩ 1 (by decide)

/-! ## Two-phase flush: `_flush` (src/Animated.js lines 94-105).

`_flush` walks the child graph top-down from the changed `AnimatedValue`:
a node exposing an `update` capability is added to a JS `Set`
(`animatedStyles`); any other node is expanded into its children.  The
`Set` is then iterated (insertion order) and `update()` is called once per
member.  Nodes are identified by `Nat` ids; a graph assigns to each id its
`update` capability and child list.  The JS recursion terminates because
the graph is acyclic; the embedding makes the recursion depth explicit as
fuel (all claims proved hold for every fuel). -/

structure GNode where
  hasUpdate : Bool
  children : List Nat

def Graph : Type := Nat → GNode

/-- JS `Set.add`: append if not already present (insertion order kept). -/
def setAdd (s : List Nat) (n : Nat) : List Nat :=
  if n ∈ s then s else s ++ [n]

/-- `findAnimatedStyles(theNode)`: collect `update`-capable nodes into the
set, expanding other nodes into their children. -/
def findAnimatedStyles (g : Graph) : Nat → Nat → List Nat → List Nat
  | 0, _, acc => acc
  | fuel + 1, n, acc =>
    if (g n).hasUpdate then setAdd acc n
    else (g n).children.foldl (fun a c => findAnimatedStyles g fuel c a) acc

/-- The list of terminal nodes whose `update()` one `_flush` call invokes,
in invocation order. -/
def flushUpdateList (g : Graph) (fuel start : Nat) : List Nat :=
  findAnimatedStyles g fuel start []

lemma setAdd_nodup (s : List Nat) (n : Nat) (h : s.Nodup) : (setAdd s n).Nodup := by
  by_cases hmem : n ∈ s
  · simpa [setAdd, hmem] using h
  · simp [setAdd, hmem, List.nodup_append, h]

lemma setAdd_mem (s : List Nat) (n t : Nat) :
    t ∈ setAdd s n ↔ t ∈ s ∨ t = n := by
  by_cases hmem : n ∈ s
  · simp only [setAdd, if_pos hmem]
    constructor
    · exact fun h => Or.inl h
    · rintro (h | rfl)
      · exact h
      · exact hmem
  · simp [setAdd, hmem]

lemma findAnimatedStyles_inv (g : Graph) :
    ∀ (fuel n : Nat) (acc : List Nat),
      acc.Nodup ∧ (∀ t ∈ acc, (g t).hasUpdate = true) →
      (findAnimatedStyles g fuel n acc).Nodup
        ∧ (∀ t ∈ findAnimatedStyles g fuel n acc, (g t).hasUpdate = true) := by
  intro fuel
  induction fuel with
  | zero => intro n acc h; simpa [findAnimatedStyles] using h
  | succ fuel ih =>
    intro n acc h
    simp only [findAnimatedStyles]
    by_cases hupd : (g n).hasUpdate
    · rw [if_pos hupd]
      refine ⟨setAdd_nodup acc n h.1, ?_⟩
      intro t ht
      rcases (setAdd_mem acc n t).mp ht with hin | rfl
      · exact h.2 t hin
      · exact hupd
    · rw [if_neg hupd]
      exact foldl_preserves
        (fun a => a.Nodup ∧ ∀ t ∈ a, (g t).hasUpdate = true)
        (fun a c => findAnimatedStyles g fuel c a)
        (fun a c ha => ih c a ha) (g n).children acc h

/-- C4: within one flush, the collected list of terminal (update-capable)
nodes is duplicate-free — no matter how many distinct paths lead from the
changed leaf to a terminal node, the `Set` deduplicates it — so each
collected node is `update`-capable and its `update()` is invoked exactly
once (it occurs exactly once in the invocation list). -/
theorem c4_flush_dedup (g : Graph) (fuel start : Nat) :
    (flushUpdateList g fuel start).Nodup
    ∧ ∀ t ∈ flushUpdateList g fuel start,
        (g t).hasUpdate = true ∧ (flushUpdateList g fuel start).count t = 1 := by
  have h := findAnimatedStyles_inv g fuel start [] (by simp)
  refine ⟨h.1, fun t ht => ⟨h.2 t ht, ?_⟩⟩
  exact List.count_eq_one_of_mem h.1 ht

/-- Diamond-shaped example graph: leaf 0 feeds nodes 1 and 2, which both
feed the terminal node 3 (two distinct paths from 0 to 3). -/
def diamondGraph : Graph := fun n =>
  match n with
  | 0 => ⟨false, [1, 2]⟩
  | 1 => ⟨false, [3]⟩
  | 2 => ⟨false, [3]⟩
  | 3 => ⟨true, []⟩
  | _ => ⟨false, []⟩

/-- C4 witness: in the diamond graph the terminal node 3 is reachable from
leaf 0 along two distinct paths, yet a flush starting at 0 invokes its
`update()` exactly once. -/
theorem c4_flush_witness :
    (diamondGraph 3).hasUpdate = true
    ∧ (flushUpdateList diamondGraph 4 0).count 3 = 1 :=
  (c4_flush_dedup diamondGraph 4 0).2 3 (by decide)

/-! ## Driver completion callback (`_onEnd`) discipline.

All three drivers handle their completion callback identically:
`var onEnd = this._onEnd; this._onEnd = null; onEnd && onEnd(flag);` —
on natural completion (TimingAnimation.onUpdate lines 163-165,
DecayAnimation.onUpdate lines 233-235, SpringAnimation.onUpdate lines
490-492) with `flag = true`, and in `stop()` (Timing lines 178-184, Decay
lines 243-248, Spring lines 498-504) with `flag = false`.  `stop()` also
cancels the pending timer / animation frame (scheduler bookkeeping that
does not touch the callback), and Spring's `stop()` additionally clears
`_active`, which only gates further `onUpdate` ticks.

`EndSlot.present` models whether `_onEnd` is still non-null; `log` records
every invocation of the completion callback with its `finished` flag. -/

structure EndSlot where
  present : Bool
  log : List Bool
deriving DecidableEq, Repr

/-- `var onEnd = this._onEnd; this._onEnd = null; onEnd && onEnd(finished);` -/
def endSlotFire (s : EndSlot) (finished : Bool) : EndSlot :=
  if s.present then ⟨false, s.log ++ [finished]⟩ else s

/-- `TimingAnimation.stop()` (also cancels the delay timeout and the
pending animation frame). -/
def timingStopEnd (s : EndSlot) : EndSlot := endSlotFire s false

/-- `DecayAnimation.stop()` (also cancels the pending animation frame). -/
def decayStopEnd (s : EndSlot) : EndSlot := endSlotFire s false

/-- `SpringAnimation.stop()`: sets `_active = false`, cancels the pending
animation frame, and fires the end callback with `false`. -/
def springStopEnd (s : Bool × EndSlot) : Bool × EndSlot :=
  (false, endSlotFire s.2 false)

/-- A lifecycle event of a driver: a tick on which the driver naturally
completes (firing the callback with `true`), or a `stop()` call (firing
it with `false`). -/
inductive DriverEvent where
  | complete
  | stop
deriving DecidableEq, Repr

def driverStep (s : EndSlot) : DriverEvent → EndSlot
  | .complete => endSlotFire s true
  | .stop => endSlotFire s false

/-- Run a driver lifecycle from a freshly started driver (callback
installed, nothing fired yet). -/
def driverRun (evs : List DriverEvent) : EndSlot :=
  evs.foldl driverStep ⟨true, []⟩

/-- The `_onEnd` slot is non-null exactly while nothing has fired, and at
most one invocation ever happens. -/
def endSlotInv (s : EndSlot) : Prop :=
  (s.present = true ↔ s.log = []) ∧ s.log.length ≤ 1

lemma endSlotFire_inv (s : EndSlot) (b : Bool) (h : endSlotInv s) :
    endSlotInv (endSlotFire s b) := by
  by_cases hp : s.present = true
  · have hlog : s.log = [] := h.1.mp hp
    simp [endSlotFire, endSlotInv, hp, hlog]
  · simpa [endSlotFire, hp] using h

lemma driverRun_inv (evs : List DriverEvent) : endSlotInv (driverRun evs) := by
  refine foldl_preserves endSlotInv driverStep ?_ evs _ (by simp [endSlotInv])
  intro s ev h
  cases ev <;> exact endSlotFire_inv s _ h

/-- C9: over any lifecycle of a Timing, Decay or Spring driver (any
interleaving of natural-completion ticks and `stop()` calls), the
completion callback fires at most once; if it has not yet fired, `stop()`
fires it with `finished = false`; if it has already fired (natural
completion or an earlier `stop`), a further `stop()` changes nothing. -/
theorem c9_driver_stop_once (evs : List DriverEvent) :
    (driverRun evs).log.length ≤ 1
    ∧ ((driverRun evs).log = [] →
        timingStopEnd (driverRun evs) = ⟨false, [false]⟩
        ∧ decayStopEnd (driverRun evs) = ⟨false, [false]⟩
        ∧ ∀ a : Bool, springStopEnd (a, driverRun evs) = (false, ⟨false, [false]⟩))
    ∧ ((driverRun evs).log ≠ [] →
        timingStopEnd (driverRun evs) = driverRun evs
        ∧ decayStopEnd (driverRun evs) = driverRun evs
        ∧ ∀ a : Bool, springStopEnd (a, driverRun evs) = (false, driverRun evs)) := by
  have h := driverRun_inv evs
  refine ⟨h.2, fun hlog => ?_, fun hlog => ?_⟩
  · have hp : (driverRun evs).present = true := h.1.mpr hlog
    have hfire : endSlotFire (driverRun evs) false = ⟨false, [false]⟩ := by
      simp [endSlotFire, hp, hlog]
    exact ⟨hfire, hfire, fun a => by simp [springStopEnd, hfire]⟩
  · have hp : ¬ (driverRun evs).present = true := fun hp => hlog (h.1.mp hp)
    have hfire : endSlotFire (driverRun evs) false = driverRun evs := by
      simp [endSlotFire, hp]
    exact ⟨hfire, hfire, fun a => by simp [springStopEnd, hfire]⟩

/-- C9 witness: after a natural completion the callback has fired once
with `true`, and a subsequent `stop()` fires nothing; conversely `stop()`
on a fresh driver fires exactly `false`. -/
theorem c9_witness :
    (driverRun [DriverEvent.complete]).log.length ≤ 1
    ∧ timingStopEnd (driverRun [DriverEvent.complete])
        = driverRun [DriverEvent.complete]
    ∧ timingStopEnd (driverRun []) = ⟨false, [false]⟩ :=
  ⟨(c9_driver_stop_once [DriverEvent.complete]).1,
   ((c9_driver_stop_once [DriverEvent.complete]).2.2 (by decide)).1,
   ((c9_driver_stop_once []).2.1 (by decide)).1⟩

/-! ## The `AnimatedValue` leaf: `setValue` / `_updateValue`
(src/Animated.js lines 511-605).

State of one `AnimatedValue` plus the observable effects the claims are
about: `flushCount` counts `_flush` invocations, `listenerCalls` records
every listener invocation `(listener id, argument value)` in order, and
`endedCallbacks` records every completion callback fired towards the
owner of an active driver (the `animate` completion closure forwards the
driver's `finished` flag after clearing the `_animation` slot). -/

structure ValueState where
  value : ℚ
  offset : ℚ
  animation : Bool
  listeners : List Nat
  flushCount : Nat
  listenerCalls : List (Nat × ℚ)
  endedCallbacks : List Bool
deriving DecidableEq, Repr

/-- `getValue()`: stored value plus offset. -/
def vGetValue (st : ValueState) : ℚ := st.value + st.offset

/-- `_updateValue(value)`: strict-equality short-circuit against the
stored `_value`; otherwise store, `_flush`, then call every listener with
`{value: this.getValue()}`. -/
def vUpdateValue (st : ValueState) (v : ℚ) : ValueState :=
  if v = st.value then st
  else
    let st' := { st with value := v, flushCount := st.flushCount + 1 }
    { st' with
        listenerCalls :=
          st'.listenerCalls ++ st'.listeners.map (fun i => (i, vGetValue st')) }

/-- `setValue(value)`: if a driver is active, `stop()` it (which fires its
completion callback with `finished = false` through the `animate`
completion closure, clearing the slot), null the slot, then
`_updateValue(value)`. -/
def vSetValue (st : ValueState) (v : ℚ) : ValueState :=
  let st' :=
    if st.animation then
      { st with animation := false, endedCallbacks := st.endedCallbacks ++ [false] }
    else st
  vUpdateValue st' v

/-- A value node holding stored value 5 with offset 3 (resolved value 8)
and one registered listener. -/
def offsetNode : ValueState := ⟨5, 3, false, [1], 0, [], []⟩

/-- C2 counterexample: `offsetNode` resolves to 8 (stored 5 + offset 3),
yet `setValue(8)` is not a no-op — the strict-equality short-circuit
compares against the stored value 5, so a flush occurs and the listener
fires (with 8 + 3 = 11, the post-mutation resolved value). -/
theorem c2_counterexample :
    vGetValue offsetNode = 8
    ∧ (vSetValue offsetNode 8).flushCount = 1
    ∧ (vSetValue offsetNode 8).listenerCalls = [(1, 11)] := by
  refine ⟨by norm_num [vGetValue, offsetNode], ?_, ?_⟩ <;>
    norm_num [vSetValue, vUpdateValue, vGetValue, offsetNode]

/-- C2 (amended): `setValue(v)` skips the flush and all listener calls
exactly when `v` equals the *stored* value (the offset is ignored by the
short-circuit); otherwise exactly one flush occurs and every registered
listener is called exactly once, with the post-mutation resolved value
(new stored value + offset). -/
theorem c2_amended_setValue (st : ValueState) (v : ℚ) :
    (v = st.value →
        (vSetValue st v).flushCount = st.flushCount
        ∧ (vSetValue st v).listenerCalls = st.listenerCalls)
    ∧ (v ≠ st.value →
        (vSetValue st v).flushCount = st.flushCount + 1
        ∧ (vSetValue st v).listenerCalls
            = st.listenerCalls ++ st.listeners.map (fun i => (i, v + st.offset))) := by
  constructor
  · intro hv
    by_cases ha : st.animation <;>
      simp [vSetValue, vUpdateValue, ha, hv]
  · intro hv
    by_cases ha : st.animation <;>
      simp [vSetValue, vUpdateValue, vGetValue, ha, hv]

/-- C2 amended witness: on `offsetNode`, `setValue(5)` (equal to the
stored value) causes no flush and no listener call, while `setValue(7)`
flushes once and calls listener 1 with 7 + 3 = 10. -/
theorem c2_amended_witness :
    ((vSetValue offsetNode 5).flushCount = offsetNode.flushCount
      ∧ (vSetValue offsetNode 5).listenerCalls = offsetNode.listenerCalls)
    ∧ ((vSetValue offsetNode 7).flushCount = offsetNode.flushCount + 1
      ∧ (vSetValue offsetNode 7).listenerCalls
          = offsetNode.listenerCalls
            ++ offsetNode.listeners.map (fun i => (i, 7 + offsetNode.offset))) :=
  ⟨(c2_amended_setValue offsetNode 5).1 (by norm_num [offsetNode]),
   (c2_amended_setValue offsetNode 7).2 (by norm_num [offsetNode])⟩

/-- C10: `setValue(v)` stops an active driver unconditionally — before the
equality short-circuit — so even when `v` strictly equals the stored value
the driver slot is cleared and the driver's completion callback fires with
`finished = false`, while the flush and all listener calls are still
suppressed and the stored value is unchanged. -/
theorem c10_setValue_stops_driver (st : ValueState) (v : ℚ)
    (ha : st.animation = true) (hv : v = st.value) :
    (vSetValue st v).animation = false
    ∧ (vSetValue st v).endedCallbacks = st.endedCallbacks ++ [false]
    ∧ (vSetValue st v).flushCount = st.flushCount
    ∧ (vSetValue st v).listenerCalls = st.listenerCalls
    ∧ (vSetValue st v).value = st.value := by
  simp [vSetValue, vUpdateValue, ha, hv]

/-- C10 witness: on a node with an active driver, `setValue` of the
current stored value clears the driver slot and fires its completion
callback with `false`, with no flush and no listener call. -/
theorem c10_witness :
    (vSetValue ⟨5, 0, true, [1], 0, [], []⟩ 5).animation = false
    ∧ (vSetValue ⟨5, 0, true, [1], 0, [], []⟩ 5).endedCallbacks = [] ++ [false]
    ∧ (vSetValue ⟨5, 0, true, [1], 0, [], []⟩ 5).flushCount = 0
    ∧ (vSetValue ⟨5, 0, true, [1], 0, [], []⟩ 5).listenerCalls = []
    ∧ (vSetValue ⟨5, 0, true, [1], 0, [], []⟩ 5).value = 5 :=
  c10_setValue_stops_driver ⟨5, 0, true, [1], 0, [], []⟩ 5 rfl rfl

/-! ## The Timing driver: `TimingAnimation.onUpdate`
(src/Animated.js lines 156-176).

`onUpdate` reads the clock: when `now > startTime + duration` it emits
`fromValue + easing(1) * (toValue − fromValue)` and fires the end callback
with `true`; otherwise it emits
`fromValue + easing((now − startTime) / duration) * (toValue − fromValue)`
and schedules the next animation frame. -/

structure TimingState where
  fromValue : ℚ
  toValue : ℚ
  duration : ℚ
  startTime : ℚ
  easing : ℚ → ℚ
  slot : EndSlot
  rescheduled : Bool

/-- One `TimingAnimation.onUpdate` tick at clock time `now`; returns the
post-tick state and the value passed to `_onUpdate`. -/
def timingOnUpdate (st : TimingState) (now : ℚ) : TimingState × ℚ :=
  if now > st.startTime + st.duration then
    ({ st with slot := endSlotFire st.slot true, rescheduled := false },
     st.fromValue + st.easing 1 * (st.toValue - st.fromValue))
  else
    ({ st with rescheduled := true },
     st.fromValue
       + st.easing ((now - st.startTime) / st.duration)
         * (st.toValue - st.fromValue))

/-- A Timing driver freshly started (end callback installed, no frame
scheduled yet). -/
def mkTiming (f t d s : ℚ) (e : ℚ → ℚ) : TimingState :=
  ⟨f, t, d, s, e, ⟨true, []⟩, false⟩

/-- C3 counterexample: `from = 0, to = 100, duration = 1000`, identity
easing, started at time 0, ticked at elapsed time exactly 1000 (= the
duration, so elapsed ≥ duration): the tick emits 100, but the comparison
in the code is strict (`now > startTime + duration`), so the driver does
NOT signal completion on that tick — it reschedules instead. -/
theorem c3_counterexample :
    (timingOnUpdate (mkTiming 0 100 1000 0 id) 1000).2 = 100
    ∧ (timingOnUpdate (mkTiming 0 100 1000 0 id) 1000).1.slot.log = []
    ∧ (timingOnUpdate (mkTiming 0 100 1000 0 id) 1000).1.rescheduled = true := by
  have hcond : ¬ ((1000 : ℚ) > 0 + 1000) := by norm_num
  refine ⟨?_, ?_, ?_⟩ <;> simp [timingOnUpdate, mkTiming, hcond]

/-- C3 (amended): a tick at elapsed time `x ≤ d` (including `x = d`)
emits `f + e(x/d)·(t − f)` and reschedules without completing — at
`x = d` this emitted value is already the fraction-1 value
`f + e(1)·(t − f)` whenever `d ≠ 0`; a tick at elapsed time `x > d`
emits the fraction-1 value `f + e(1)·(t − f)` (exactly `t` for the
identity easing) and signals completion with `finished = true` exactly
once on that same tick. -/
theorem c3_amended_timing_tick (f t d s : ℚ) (e : ℚ → ℚ) (x : ℚ) :
    (x ≤ d →
        (timingOnUpdate (mkTiming f t d s e) (s + x)).2
            = f + e (x / d) * (t - f)
        ∧ (timingOnUpdate (mkTiming f t d s e) (s + x)).1.slot.log = []
        ∧ (timingOnUpdate (mkTiming f t d s e) (s + x)).1.rescheduled = true)
    ∧ (d < x →
        (timingOnUpdate (mkTiming f t d s e) (s + x)).2
            = f + e 1 * (t - f)
        ∧ (timingOnUpdate (mkTiming f t d s e) (s + x)).1.slot.log = [true]
        ∧ (timingOnUpdate (mkTiming f t d s e) (s + x)).1.rescheduled = false) := by
  constructor
  · intro hx
    have hcond : ¬ (s + x > s + d) := by
      simp only [gt_iff_lt, add_lt_add_iff_left, not_lt]
      exact hx
    simp [timingOnUpdate, mkTiming, hcond]
  · intro hx
    have hcond : s + x > s + d := by
      simp only [gt_iff_lt, add_lt_add_iff_left]
      exact hx
    simp [timingOnUpdate, mkTiming, hcond, endSlotFire]

/-- C3 amended witness: sampling the `from = 0, to = 100, duration = 1000`
identity-easing driver at elapsed time 500 yields 50 without completing,
and at elapsed time 1001 yields 100 with completion `true`. -/
theorem c3_amended_witness :
    (timingOnUpdate (mkTiming 0 100 1000 0 id) (0 + 500)).2 = 50
    ∧ (timingOnUpdate (mkTiming 0 100 1000 0 id) (0 + 1001)).2 = 100
    ∧ (timingOnUpdate (mkTiming 0 100 1000 0 id) (0 + 1001)).1.slot.log = [true] := by
  have h1 := (c3_amended_timing_tick 0 100 1000 0 id 500).1 (by norm_num)
  have h2 := (c3_amended_timing_tick 0 100 1000 0 id 1001).2 (by norm_num)
  refine ⟨?_, ?_, h2.2.1⟩
  · rw [h1.1]; norm_num
  · rw [h2.1]; norm_num

/-! ## The Spring driver: constructor and rest conditions
(src/Animated.js lines 263-334, 355-385 and 475-494).

The constructor never stores the configured tension/friction directly: it
converts them through the Origami calibration curves
`tensionFromOrigamiValue` / `frictionFromOrigamiValue` (or derives both
from bounciness/speed).  The rest conditions in `onUpdate` test the
converted `_tension` against zero. -/

def withDefault {α : Type} (v : Option α) (d : α) : α := v.getD d

def tensionFromOrigamiValue (oValue : ℚ) : ℚ := (oValue - 30) * 3.62 + 194

def frictionFromOrigamiValue (oValue : ℚ) : ℚ := (oValue - 8) * 3 + 25

def fromOrigamiTensionAndFriction (tension friction : ℚ) : ℚ × ℚ :=
  (tensionFromOrigamiValue tension, frictionFromOrigamiValue friction)

def normalize (value startValue endValue : ℚ) : ℚ :=
  (value - startValue) / (endValue - startValue)

def projectNormal (n start stop : ℚ) : ℚ := start + n * (stop - start)

def linearInterpolation (t start stop : ℚ) : ℚ := t * stop + (1 - t) * start

def quadraticOutInterpolation (t start stop : ℚ) : ℚ :=
  linearInterpolation (2 * t - t * t) start stop

def b3Friction1 (x : ℚ) : ℚ := 0.0007 * x ^ 3 - 0.031 * x ^ 2 + 0.64 * x + 1.28

def b3Friction2 (x : ℚ) : ℚ := 0.000044 * x ^ 3 - 0.006 * x ^ 2 + 0.36 * x + 2

def b3Friction3 (x : ℚ) : ℚ :=
  0.00000045 * x ^ 3 - 0.000332 * x ^ 2 + 0.1078 * x + 5.84

def b3Nobounce (tension : ℚ) : ℚ :=
  if tension ≤ 18 then b3Friction1 tension
  else if tension ≤ 44 then b3Friction2 tension
  else b3Friction3 tension

def fromBouncinessAndSpeed (bounciness speed : ℚ) : ℚ × ℚ :=
  let b := projectNormal (normalize (bounciness / 1.7) 0 20) 0 0.8
  let s := normalize (speed / 1.7) 0 20
  let bouncyTension := projectNormal s 0.5 200
  let bouncyFriction := quadraticOutInterpolation b (b3Nobounce bouncyTension) 0.01
  (tensionFromOrigamiValue bouncyTension, frictionFromOrigamiValue bouncyFriction)

structure SpringConfig where
  toValue : ℚ
  overshootClamping : Option Bool := none
  restDisplacementThreshold : Option ℚ := none
  restSpeedThreshold : Option ℚ := none
  velocity : Option ℚ := none
  bounciness : Option ℚ := none
  speed : Option ℚ := none
  tension : Option ℚ := none
  friction : Option ℚ := none
deriving DecidableEq

/-- The fields the `SpringAnimation` constructor computes from its
config. -/
structure SpringParams where
  overshootClamping : Bool
  restDisplacementThreshold : ℚ
  restSpeedThreshold : ℚ
  initialVelocity : ℚ
  toValue : ℚ
  tension : ℚ
  friction : ℚ
deriving DecidableEq, Repr

/-- The `SpringAnimation` constructor.  `none` models the `invariant`
failure thrown when both bounciness/speed and tension/friction are
supplied. -/
def springFromConfig (c : SpringConfig) : Option SpringParams :=
  let mk : ℚ × ℚ → SpringParams := fun tf =>
    { overshootClamping := withDefault c.overshootClamping false
      restDisplacementThreshold := withDefault c.restDisplacementThreshold 0.001
      restSpeedThreshold := withDefault c.restSpeedThreshold 0.001
      initialVelocity := withDefault c.velocity 0
      toValue := c.toValue
      tension := tf.1
      friction := tf.2 }
  if c.bounciness.isSome || c.speed.isSome then
    if c.tension.isSome || c.friction.isSome then none
    else some (mk (fromBouncinessAndSpeed
      (withDefault c.bounciness 8) (withDefault c.speed 12)))
  else
    some (mk (fromOrigamiTensionAndFriction
      (withDefault c.tension 40) (withDefault c.friction 7)))

/-- The stopping conditions evaluated at the end of
`SpringAnimation.onUpdate` (lines 475-494): overshoot clamping (only
when `_tension !== 0`), `isVelocity` (speed at or below the rest-speed
threshold) and `isDisplacement` (displacement at or below the
rest-displacement threshold, skipped — i.e. `true` — when `_tension`
is zero).  Returns whether the driver finishes (`finished = true`) on
this tick. -/
def springShouldRest (p : SpringParams) (startPosition position velocity : ℚ) : Bool :=
  let isOvershooting :=
    if p.overshootClamping ∧ p.tension ≠ 0 then
      if startPosition < p.toValue then
        decide (position > p.toValue)
      else
        decide (position < p.toValue)
    else false
  let isVelocity := decide (|velocity| ≤ p.restSpeedThreshold)
  let isDisplacement :=
    if p.tension ≠ 0 then
      decide (|p.toValue - position| ≤ p.restDisplacementThreshold)
    else true
  isOvershooting || (isVelocity && isDisplacement)

/-- The spec's C1 scenario: a spring configured with `tension = 0`,
`friction = 10`, initial velocity 5, and a far-away target 1000. -/
def c1Config : SpringConfig :=
  { toValue := 1000, velocity := some 5, tension := some 0, friction := some 10 }

/-- What the constructor actually produces for `c1Config`: the configured
tension 0 is converted through the Origami curve to
`(0 − 30) · 3.62 + 194 = 85.4`, and friction 10 to 31. -/
def c1Params : SpringParams :=
  { overshootClamping := false
    restDisplacementThreshold := 0.001
    restSpeedThreshold := 0.001
    initialVelocity := 5
    toValue := 1000
    tension := 85.4
    friction := 31 }

/-- C1 counterexample: the driver built from `tension = 0, friction = 10,
velocity = 5, toValue = 1000` has internal tension 85.4 ≠ 0, so the
displacement rest condition is NOT skipped: at position 0 (far from the
target) with speed 0 ≤ restSpeedThreshold the driver does not finish,
refuting "finishes as soon as speed ≤ threshold regardless of distance to
target". -/
theorem c1_counterexample :
    springFromConfig c1Config = some c1Params
    ∧ c1Params.tension ≠ 0
    ∧ |(0 : ℚ)| ≤ c1Params.restSpeedThreshold
    ∧ springShouldRest c1Params 0 0 0 = false := by
  refine ⟨?_, ?_, ?_, ?_⟩
  · norm_num [springFromConfig, c1Config, c1Params, withDefault,
      fromOrigamiTensionAndFriction, tensionFromOrigamiValue,
      frictionFromOrigamiValue]
  · norm_num [c1Params]
  · norm_num [c1Params]
  · norm_num [springShouldRest, c1Params]

/-- C1 (amended): the displacement rest condition is skipped (always
true) exactly when the spring's *internal* tension — the configured
tension passed through the Origami conversion
`(tension − 30) · 3.62 + 194`, which maps a configured `tension = 0` to
85.4 — is exactly zero.  For every spring state whose internal tension is
0 the driver finishes precisely when the integrated speed is at most the
rest-speed threshold, regardless of the distance between the position and
the target (and overshoot clamping, which also requires nonzero tension,
never fires). -/
theorem c1_amended_tension_zero (p : SpringParams)
    (h : p.tension = 0) (startPosition position velocity : ℚ) :
    springShouldRest p startPosition position velocity
      = decide (|velocity| ≤ p.restSpeedThreshold) := by
  simp [springShouldRest, h]

/-- C1 amended witness: a spring state with internal tension 0 (reachable
from a configured tension of `30 − 194/3.62 = −4270/181`) finishes at
position 0 with target 1000 and velocity 0, purely on the speed test. -/
theorem c1_amended_witness :
    springShouldRest ⟨false, 0.001, 0.001, 5, 1000, 0, 31⟩ 0 0 0
      = decide (|(0 : ℚ)| ≤ (0.001 : ℚ)) :=
  c1_amended_tension_zero ⟨false, 0.001, 0.001, 5, 1000, 0, 31⟩ rfl 0 0 0

/-! ## The `sequence` combinator (src/Animated.js lines 1131-1166).

A driver is abstracted by the `finished` flag it eventually reports when
started; a run of `sequence` is therefore a function of the list of those
flags, in driver order.  `sequenceGo rs i` models `onComplete` driving the
remaining animations `i, i+1, …` whose results are `rs`: it returns the
indices of the drivers actually started (in start order) and the list of
invocations of the overall callback (with their flags). -/

def sequenceGo : List Bool → Nat → List Nat × List Bool
  | [], _ => ([], [true])
  | r :: rest, i =>
    if r = false then
      ([i], [false])
    else if rest.isEmpty then
      ([i], [true])
    else
      (i :: (sequenceGo rest (i + 1)).1, (sequenceGo rest (i + 1)).2)

/-- `sequence(animations).start(callback)`: an empty list completes
immediately with `true`; otherwise driver 0 is started and `onComplete`
takes over. -/
def sequenceRun (rs : List Bool) : List Nat × List Bool :=
  if rs.isEmpty then ([], [true]) else sequenceGo rs 0

/-- `sequence(...).stop()`: forwards to `animations[current]` when
`current < animations.length`, else does nothing. -/
def sequenceStopTarget (current len : Nat) : Option Nat :=
  if current < len then some current else none

lemma sequenceGo_spec : ∀ (rs : List Bool) (i : Nat),
    sequenceGo rs i
      = (List.range' i (min rs.length (rs.findIdx (fun b => !b) + 1)),
         [rs.all id]) := by
  intro rs
  induction rs with
  | nil => intro i; simp [sequenceGo]
  | cons r rest ih =>
    intro i
    cases r with
    | false => simp [sequenceGo, List.findIdx_cons]
    | true =>
      by_cases hrest : rest.isEmpty
      · have : rest = [] := by simpa [List.isEmpty_iff] using hrest
        subst this
        simp [sequenceGo, List.findIdx_cons]
      · simp only [sequenceGo]
        rw [if_neg (show ¬ (true = false) by simp), if_neg hrest, ih (i + 1)]
        have hmin : min (rest.length + 1) (rest.findIdx (fun b => !b) + 1 + 1)
            = min rest.length (rest.findIdx (fun b => !b) + 1) + 1 :=
          Nat.succ_min_succ _ _
        simp [List.findIdx_cons, hmin, List.range'_succ]

/-- C7: a `sequence` run starts drivers in order (the started indices are
an initial range), stopping right after the first driver that reports
`finished = false` — no later driver is ever started — and invokes the
overall callback exactly once, with `true` iff every driver (including
the last) finished `true`; the empty sequence completes immediately with
`true`; and `stop()` forwards to the currently running driver
`animations[current]` exactly when `current < animations.length`. -/
theorem c7_sequence_spec (rs : List Bool) :
    sequenceRun rs
      = (List.range (min rs.length (rs.findIdx (fun b => !b) + 1)),
         [rs.all id])
    ∧ (∀ j, j < rs.length → sequenceStopTarget j rs.length = some j)
    ∧ sequenceStopTarget rs.length rs.length = none := by
  refine ⟨?_, ?_, ?_⟩
  · by_cases hempty : rs.isEmpty
    · have : rs = [] := by simpa [List.isEmpty_iff] using hempty
      subst this
      simp [sequenceRun]
    · rw [sequenceRun, if_neg hempty, sequenceGo_spec rs 0, List.range_eq_range']
  · intro j hj
    simp [sequenceStopTarget, hj]
  · simp [sequenceStopTarget]

/-- C7 witness: for results true, false, true the run starts only drivers
0 and 1, reports `false` once, and `stop` while driver 1 is current
forwards to driver 1. -/
theorem c7_witness :
    sequenceRun [true, false, true] = ([0, 1], [false])
    ∧ sequenceStopTarget 1 3 = some 1 := by
  have h := c7_sequence_spec [true, false, true]
  exact ⟨by rw [h.1]; decide, h.2.1 1 (by norm_num)⟩

/-! ## The `parallel` combinator (src/Animated.js lines 1168-1206).

Each started driver eventually invokes its completion callback exactly
once; a run of `parallel` is modelled by folding the per-driver completion
handler over the list of reported `finished` flags in completion order
(when the group is stopped mid-run, the cascaded `stop()` of the still
running drivers surfaces as their `finished = false` completions later in
the list).  `stopCount` counts invocations of `result.stop()` — the
group-wide stop that calls `stop()` once on every member. -/

structure ParState where
  doneCount : Nat
  hasBeenStopped : Bool
  stopCount : Nat
  callbacks : List Bool
deriving DecidableEq, Repr

/-- The completion handler `parallel` installs on each driver:
`doneCount++`; if everything is done, invoke the overall callback with
this completion's flag; otherwise if this driver failed and the group has
not been stopped yet, `result.stop()` (which sets `hasBeenStopped` and
stops every member once). -/
def parOnComplete (len : Nat) (st : ParState) (finished : Bool) : ParState :=
  if st.doneCount + 1 = len then
    { st with doneCount := st.doneCount + 1,
              callbacks := st.callbacks ++ [finished] }
  else if !finished && !st.hasBeenStopped then
    { st with doneCount := st.doneCount + 1,
              hasBeenStopped := true,
              stopCount := st.stopCount + 1 }
  else
    { st with doneCount := st.doneCount + 1 }

/-- `parallel(animations).start(callback)`: with no animations the
callback fires immediately with `true`; otherwise all drivers are started
and their completions processed in order. -/
def parallelRun (flags : List Bool) : ParState :=
  if flags.isEmpty then ⟨0, false, 0, [true]⟩
  else flags.foldl (parOnComplete flags.length) ⟨0, false, 0, []⟩

lemma parallel_foldl (len : Nat) : ∀ (post : List Bool) (st : ParState),
    post ≠ [] → st.doneCount + post.length = len →
    (post.foldl (parOnComplete len) st).hasBeenStopped
        = (st.hasBeenStopped || post.dropLast.any (fun b => !b))
    ∧ (post.foldl (parOnComplete len) st).stopCount
        = st.stopCount
          + (if st.hasBeenStopped = false ∧ post.dropLast.any (fun b => !b) = true
             then 1 else 0)
    ∧ (post.foldl (parOnComplete len) st).callbacks
        = st.callbacks ++ post.getLast?.toList := by
  intro post
  induction post with
  | nil => intro st hne; exact absurd rfl hne
  | cons b rest ih =>
    intro st hne hlen
    cases rest with
    | nil =>
      have hd : st.doneCount + 1 = len := by simpa using hlen
      simp [parOnComplete, hd]
    | cons b2 rest2 =>
      have hd : ¬ (st.doneCount + 1 = len) := by
        simp only [List.length_cons] at hlen
        omega
      have hstep : (b :: b2 :: rest2).foldl (parOnComplete len) st
          = (b2 :: rest2).foldl (parOnComplete len) (parOnComplete len st b) := rfl
      have hlen' : (parOnComplete len st b).doneCount + (b2 :: rest2).length = len := by
        have : (parOnComplete len st b).doneCount = st.doneCount + 1 := by
          by_cases h2 : (!b && !st.hasBeenStopped) = true <;>
            simp [parOnComplete, hd, h2]
        simp only [List.length_cons] at hlen ⊢
        omega
      have hrec := ih (parOnComplete len st b) (by simp) hlen'
      rw [hstep]
      cases b with
      | false =>
        cases hbs : st.hasBeenStopped with
        | false =>
          have h1 : parOnComplete len st false
              = { st with doneCount := st.doneCount + 1,
                          hasBeenStopped := true,
                          stopCount := st.stopCount + 1 } := by
            simp [parOnComplete, hd, hbs]
          rw [h1] at hrec ⊢
          refine ⟨?_, ?_, ?_⟩
          · rw [hrec.1]; simp
          · rw [hrec.2.1]; simp
          · rw [hrec.2.2]; simp
        | true =>
          have h1 : parOnComplete len st false
              = { st with doneCount := st.doneCount + 1 } := by
            simp [parOnComplete, hd, hbs]
          rw [h1] at hrec ⊢
          refine ⟨?_, ?_, ?_⟩
          · rw [hrec.1]; simp [hbs]
          · rw [hrec.2.1]; simp [hbs]
          · rw [hrec.2.2]; simp
      | true =>
        have h1 : parOnComplete len st true
            = { st with doneCount := st.doneCount + 1 } := by
          simp [parOnComplete, hd]
        rw [h1] at hrec ⊢
        refine ⟨?_, ?_, ?_⟩
        · rw [hrec.1]; simp
        · rw [hrec.2.1]; simp
        · rw [hrec.2.2]; simp

/-- C8: over a full `parallel` run (every driver completes exactly once,
flags listed in completion order), the overall callback is invoked
exactly once, with the `finished` flag of the last completion (`true`
immediately for the empty list); and the group-wide stop of the remaining
drivers happens exactly once when some driver other than the final
completer reports `finished = false`, and never otherwise — in
particular a second independent `finished = false` never triggers a
second stop. -/
theorem c8_parallel_spec (flags : List Bool) :
    (flags ≠ [] → (parallelRun flags).callbacks = flags.getLast?.toList)
    ∧ (parallelRun []).callbacks = [true]
    ∧ (parallelRun flags).stopCount
        = (if flags.dropLast.any (fun b => !b) then 1 else 0)
    ∧ (parallelRun flags).stopCount ≤ 1 := by
  by_cases hempty : flags.isEmpty
  · have : flags = [] := by simpa [List.isEmpty_iff] using hempty
    subst this
    refine ⟨fun h => absurd rfl h, ?_, ?_, ?_⟩ <;> simp [parallelRun]
  · have hne : flags ≠ [] := by simpa [List.isEmpty_iff] using hempty
    have h := parallel_foldl flags.length flags ⟨0, false, 0, []⟩ hne (by simp)
    have hrun : parallelRun flags
        = flags.foldl (parOnComplete flags.length) ⟨0, false, 0, []⟩ := by
      rw [parallelRun, if_neg hempty]
    refine ⟨fun _ => ?_, by simp [parallelRun], ?_, ?_⟩
    · rw [hrun, h.2.2]
      simp
    · rw [hrun, h.2.1]
      by_cases hany : flags.dropLast.any (fun b => !b) <;> simp [hany]
    · rw [hrun, h.2.1]
      by_cases hany : flags.dropLast.any (fun b => !b) = true <;> simp [hany]

/-- C8 witness: completion order true, false, false — the second driver
fails first, triggering exactly one group stop (the third completion,
another independent `false`, does not trigger a second one), and the
overall callback fires once with the last completion's flag `false`. -/
theorem c8_witness :
    (parallelRun [true, false, false]).callbacks
        = (List.getLast? [true, false, false]).toList
    ∧ (parallelRun [true, false, false]).stopCount
        = (if List.any (List.dropLast [true, false, false]) (fun b => !b) then 1 else 0) :=
  ⟨(c8_parallel_spec [true, false, false]).1 (by decide),
   (c8_parallel_spec [true, false, false]).2.2.1⟩

end AnimatedJS
